import Mathlib

/-!
Shallow embedding of the `socket` bash loadable builtin
(`src/socket_builtin.c`, helpers in `include/argparse.h` and
`include/util.h`).

Strings are modelled as `List Char`, byte sequences as `List Nat`
(one entry per byte), and machine integers as `Nat`/`Int` with the
relevant bounds (`UINT_MAX`, `INT` wrap at `2^32`) made explicit.
The interaction of each blocking loop with the operating system is
modelled by a finite trace of events: each `poll`/`read`/`write`
call consumes the next event of the trace, exactly mirroring the
branch structure of the C loops.
-/

namespace SocketSpec

/-- Exit status `SB_EX_USAGE` (2) from `socket_builtin.c`. -/
def SB_EX_USAGE : Int := 2

/-- Exit status `SB_EX_FAIL` (1) from `socket_builtin.c`. -/
def SB_EX_FAIL : Int := 1

/-- Exit status `SB_EX_OK` (0) from `socket_builtin.c`. -/
def SB_EX_OK : Int := 0

/-- Exit status `SB_EX_TIMEOUT` (124) from `socket_builtin.c`. -/
def SB_EX_TIMEOUT : Int := 124

/-- Convenience: the character list of a string literal. -/
def chars (s : String) : List Char := s.data

/-- Model of `ULONG_MAX` on the 64-bit Linux targets of the Makefile. -/
def ULONG_MAX : Nat := 2 ^ 64 - 1

/-- Model of `UINT_MAX` (32-bit `unsigned`). -/
def UINT_MAX : Nat := 2 ^ 32 - 1

/-- Model of `INT_MAX` (32-bit `int`). -/
def INT_MAX : Int := 2 ^ 31 - 1

/-- Model of `INT_MIN` (32-bit `int`). -/
def INT_MIN : Int := -(2 ^ 31)

/-- Model of `LONG_MAX` (64-bit `long`). -/
def LONG_MAX : Int := 2 ^ 63 - 1

/-- Model of `LONG_MIN` (64-bit `long`). -/
def LONG_MIN : Int := -(2 ^ 63)

/-- Characters accepted by `isspace` in the C locale. -/
def isSpaceC (c : Char) : Bool :=
  c = ' ' || c = '\t' || c = '\n' || c = '\x0b' || c = '\x0c' || c = '\r'

/-- Decimal digit test, as used by `strtoul`/`strtol` with base 10. -/
def isDigitC (c : Char) : Bool :=
  '0' ≤ c && c ≤ '9'

/-- Numeric value of a digit list, most significant first. -/
def digitsVal (ds : List Char) : Nat :=
  ds.foldl (fun a c => a * 10 + (c.toNat - 48)) 0

/-- Result of the `strtoul(s, &end, 10)` model: the converted value, the
characters after the consumed part (the `end` pointer; equal to the whole
input when no conversion was possible), and whether `ERANGE` was raised. -/
structure UlRes where
  value : Nat
  rest : List Char
  erange : Bool
deriving DecidableEq

/-- Model of glibc `strtoul(s, &end, 10)`: skip `isspace` characters, accept
an optional sign, then digits; a negative magnitude wraps modulo `2^64`;
magnitudes above `ULONG_MAX` clamp to `ULONG_MAX` with `ERANGE`. -/
def strtoul10 (s : List Char) : UlRes :=
  let s1 := s.dropWhile isSpaceC
  let signed :=
    match s1 with
    | '-' :: r => (true, r)
    | '+' :: r => (false, r)
    | _ => (false, s1)
  let ds := signed.2.takeWhile isDigitC
  let rest := signed.2.dropWhile isDigitC
  if ds.isEmpty then { value := 0, rest := s, erange := false }
  else
    let m := digitsVal ds
    if m > ULONG_MAX then { value := ULONG_MAX, rest := rest, erange := true }
    else { value := if signed.1 then (2 ^ 64 - m) % 2 ^ 64 else m, rest := rest, erange := false }

/-- Model of `parse_uint` from `include/argparse.h`: `some u` models a `0`
return with `*out = u`, `none` models a nonzero (`EINVAL`/`ERANGE`) return. -/
def parse_uint (s : List Char) : Option Nat :=
  if s.isEmpty then none
  else
    let r := strtoul10 s
    if r.erange then none
    else if ¬ r.rest.isEmpty then none
    else if r.value > UINT_MAX then none
    else some r.value

/-- Model of glibc `strtol(s, &end, 10)`: value, `end` remainder, `ERANGE`. -/
def strtol10 (s : List Char) : Int × List Char × Bool :=
  let s1 := s.dropWhile isSpaceC
  let signed :=
    match s1 with
    | '-' :: r => (true, r)
    | '+' :: r => (false, r)
    | _ => (false, s1)
  let ds := signed.2.takeWhile isDigitC
  let rest := signed.2.dropWhile isDigitC
  if ds.isEmpty then (0, s, false)
  else
    let m : Int := (digitsVal ds : Int)
    let v : Int := if signed.1 then -m else m
    if v > LONG_MAX then (LONG_MAX, rest, true)
    else if v < LONG_MIN then (LONG_MIN, rest, true)
    else (v, rest, false)

/-- Model of `parse_int` from `include/argparse.h`. -/
def parse_int (s : List Char) : Option Int :=
  if s.isEmpty then none
  else
    let r := strtol10 s
    if r.2.2 then none
    else if ¬ r.2.1.isEmpty then none
    else if r.1 > INT_MAX ∨ r.1 < INT_MIN then none
    else some r.1

/-- Model of `arg_is_flag`: first character is a dash and a second character
exists (`s[0] == '-' && s[1] != '\0'`). -/
def arg_is_flag : List Char → Bool
  | c :: _ :: _ => c = '-'
  | _ => false

/-- The C cast `(int)u` of an `unsigned` value: two's-complement wrap. -/
def castUToInt (u : Nat) : Int :=
  if u < 2 ^ 31 then (u : Int) else (u : Int) - 2 ^ 32

/-- One interaction of a receive loop with the OS.  Each loop iteration of
`read_line`/`read_bytes`/`read_all` first calls `poll_wait` and then, when
ready, `read`; one `RdEv` records the visible outcome of that iteration.
`ready chunk` means `poll` reported readiness and `read` returned the given
bytes (`[]` models `read` returning `0`, i.e. end of file). -/
inductive RdEv
  | ready (chunk : List Nat)
  | timeout
  | pollErr
  | eintr
  | eagain
  | readErr
deriving DecidableEq

/-- Return value of a receive helper.  The C helpers return an `int` that is
either `SB_EX_TIMEOUT`, `SB_EX_FAIL`, or the accumulated length with the
buffer stored through `*out`; `out buf` models the length-with-buffer case.
`hang` models exhausting the event trace while the loop would keep waiting. -/
inductive RdRet
  | out (buf : List Nat)
  | tmo
  | fail
  | hang
deriving DecidableEq

/-- Inner byte loop of `read_line` (lines 235-240 of `socket_builtin.c`):
copy bytes of the freshly read chunk into the accumulator, stopping before a
byte when the cap is reached, or right after a newline (returning `true`). -/
def scanChunk (max : Nat) : List Nat → List Nat → List Nat × Bool
  | acc, [] => (acc, false)
  | acc, b :: rest =>
    if max ≠ 0 ∧ max ≤ acc.length then (acc, false)
    else if b = 10 then (acc ++ [b], true)
    else scanChunk max (acc ++ [b]) rest

/-- Model of `read_line` from `socket_builtin.c`.  `acc` is the accumulated
buffer, and the second component of the result collects every byte obtained
from `read` (whether or not it made it into the returned buffer).  The cap
check happens at the top of the loop, before polling, exactly as in C. -/
def read_line (max : Nat) : List RdEv → List Nat → List Nat → RdRet × List Nat
  | [], acc, got =>
    if max ≠ 0 ∧ max ≤ acc.length then (RdRet.out acc, got) else (RdRet.hang, got)
  | ev :: rest, acc, got =>
    if max ≠ 0 ∧ max ≤ acc.length then (RdRet.out acc, got)
    else
      match ev with
      | RdEv.timeout => if acc.length = 0 then (RdRet.tmo, got) else (RdRet.out acc, got)
      | RdEv.pollErr => (RdRet.fail, got)
      | RdEv.eintr => read_line max rest acc got
      | RdEv.eagain => read_line max rest acc got
      | RdEv.readErr => (RdRet.fail, got)
      | RdEv.ready [] => (RdRet.out acc, got)
      | RdEv.ready (c :: cs) =>
        let p := scanChunk max acc (c :: cs)
        if p.2 then (RdRet.out p.1, got ++ c :: cs)
        else read_line max rest p.1 (got ++ c :: cs)

/-- Model of `read_bytes` from `socket_builtin.c`: accumulate until `need`
bytes are present (checked at the top of the loop), end of file, a timeout
(with the zero/nonzero distinction), or an error. -/
def read_bytes (need : Nat) : List RdEv → List Nat → RdRet
  | [], acc => if need ≠ 0 ∧ need ≤ acc.length then RdRet.out acc else RdRet.hang
  | ev :: rest, acc =>
    if need ≠ 0 ∧ need ≤ acc.length then RdRet.out acc
    else
      match ev with
      | RdEv.timeout => if acc.length = 0 then RdRet.tmo else RdRet.out acc
      | RdEv.pollErr => RdRet.fail
      | RdEv.eintr => read_bytes need rest acc
      | RdEv.eagain => read_bytes need rest acc
      | RdEv.readErr => RdRet.fail
      | RdEv.ready [] => RdRet.out acc
      | RdEv.ready (c :: cs) => read_bytes need rest (acc ++ c :: cs)

/-- Model of `read_all` from `socket_builtin.c`: accumulate until end of
file, an optional cap (checked after appending a chunk), timeout or error. -/
def read_all (max : Nat) : List RdEv → List Nat → RdRet
  | [], _ => RdRet.hang
  | ev :: rest, acc =>
    match ev with
    | RdEv.timeout => if acc.length = 0 then RdRet.tmo else RdRet.out acc
    | RdEv.pollErr => RdRet.fail
    | RdEv.eintr => read_all max rest acc
    | RdEv.eagain => read_all max rest acc
    | RdEv.readErr => RdRet.fail
    | RdEv.ready [] => RdRet.out acc
    | RdEv.ready (c :: cs) =>
      if max ≠ 0 ∧ max ≤ (acc ++ c :: cs).length then RdRet.out (acc ++ c :: cs)
      else read_all max rest (acc ++ c :: cs)

/-- Observable outcome of one `socket` command: an exit status together with
the value stored into the named result variable (`none` when the variable is
left untouched), or `hang` when the modelled loop would block forever. -/
inductive CmdOut
  | ret (exit : Int) (var : Option (List Nat))
  | hang
deriving DecidableEq

/-- The storing step of `cmd_recv` (lines 358-363): bash variables cannot
hold NUL, so the stored value is the received bytes up to the first 0. -/
def nulTruncate (bs : List Nat) : List Nat :=
  bs.takeWhile (fun b => b != 0)

/-- Tail of `cmd_recv` (lines 341-368 of `socket_builtin.c`): the helper's
`int` return is compared against `SB_EX_TIMEOUT` and `SB_EX_FAIL` before
being used as a length, exactly as the C does. -/
def recvFinish : RdRet → CmdOut
  | RdRet.hang => CmdOut.hang
  | RdRet.tmo => CmdOut.ret SB_EX_TIMEOUT (some [])
  | RdRet.fail => CmdOut.ret SB_EX_FAIL none
  | RdRet.out buf =>
    if (buf.length : Int) = SB_EX_TIMEOUT then CmdOut.ret SB_EX_TIMEOUT (some [])
    else if (buf.length : Int) = SB_EX_FAIL then CmdOut.ret SB_EX_FAIL none
    else CmdOut.ret SB_EX_OK (some (nulTruncate buf))

/-- Receive termination policies of `cmd_recv`. -/
inductive RMode
  | line
  | bytes
  | all
deriving DecidableEq

/-- Options accumulated by the flag loop of `cmd_recv`. -/
structure RecvOpts where
  timeout_ms : Int
  max : Nat
  mode : RMode
deriving DecidableEq

/-- Initial option values of `cmd_recv` (`timeout_ms = -1`, `max = 0`,
`mode = M_LINE`). -/
def recvOpts0 : RecvOpts :=
  { timeout_ms := -1, max := 0, mode := RMode.line }

/-- Flag loop of `cmd_recv` (lines 303-323): consume `-T`/`-max`/`-mode`
flags, stop at the first non-flag or unrecognized flag; `none` is a usage
error. -/
def parseRecvLoop : List (List Char) → RecvOpts → Option (RecvOpts × List (List Char))
  | [], o => some (o, [])
  | a :: rest, o =>
    if arg_is_flag a then
      if a = chars "-T" then
        match rest with
        | [] => none
        | v :: rest2 =>
          match parse_uint v with
          | none => none
          | some u => parseRecvLoop rest2 { o with timeout_ms := castUToInt u }
      else if a = chars "-max" then
        match rest with
        | [] => none
        | v :: rest2 =>
          match parse_uint v with
          | none => none
          | some u => parseRecvLoop rest2 { o with max := u }
      else if a = chars "-mode" then
        match rest with
        | [] => none
        | v :: rest2 =>
          if v = chars "line" then parseRecvLoop rest2 { o with mode := RMode.line }
          else if v = chars "bytes" then parseRecvLoop rest2 { o with mode := RMode.bytes }
          else if v = chars "all" then parseRecvLoop rest2 { o with mode := RMode.all }
          else none
      else some (o, a :: rest)
    else some (o, a :: rest)

/-- The effective byte target of bytes mode: `need = max ? max : 4096`. -/
def recvNeed (max : Nat) : Nat :=
  if max ≠ 0 then max else 4096

/-- Model of `cmd_recv` (lines 297-369 of `socket_builtin.c`).  The receive
loop interacts with the OS through the event trace `tr`. -/
def cmd_recv (args : List (List Char)) (tr : List RdEv) : CmdOut :=
  match parseRecvLoop args recvOpts0 with
  | none => CmdOut.ret SB_EX_USAGE none
  | some (o, pos) =>
    match pos with
    | [fdS, _] =>
      match parse_int fdS with
      | none => CmdOut.ret SB_EX_USAGE none
      | some fd =>
        if fd < 0 then CmdOut.ret SB_EX_USAGE none
        else
          match o.mode with
          | RMode.line => recvFinish (read_line o.max tr [] []).1
          | RMode.bytes => recvFinish (read_bytes (recvNeed o.max) tr [])
          | RMode.all => recvFinish (read_all o.max tr [])
    | _ => CmdOut.ret SB_EX_USAGE none

/-- One interaction of `write_full_poll` with the OS: `wrote n` models
`write` returning `n ≥ 0`; `eagain pr` models `EAGAIN`/`EWOULDBLOCK`
followed by `poll_wait(fd, POLLOUT, -1)` returning `pr`. -/
inductive WrEv
  | wrote (n : Nat)
  | eintr
  | eagain (pr : Int)
  | werr
deriving DecidableEq

/-- Model of `write_full_poll` from `include/util.h`: returns the C return
value (`some len` on success, `some (-1)` on failure, `none` when the trace
is exhausted while waiting) together with the final cursor position. -/
def write_full_poll (buf : List Nat) : List WrEv → Nat → Option Int × Nat
  | [], pos =>
    if buf.length ≤ pos then (some (buf.length : Int), pos) else (none, pos)
  | ev :: rest, pos =>
    if buf.length ≤ pos then (some (buf.length : Int), pos)
    else
      match ev with
      | WrEv.wrote n => if 0 < n then write_full_poll buf rest (pos + n) else (some (-1), pos)
      | WrEv.eintr => write_full_poll buf rest pos
      | WrEv.eagain pr => if pr ≤ 0 then (some (-1), pos) else write_full_poll buf rest pos
      | WrEv.werr => (some (-1), pos)

/-- Exit status computed by `cmd_send` from the `write_full_poll` return
(line 209: `if (wr < 0) ... SB_EX_FAIL; return SB_EX_OK`). -/
def sendExit (wr : Int) : Int :=
  if wr < 0 then SB_EX_FAIL else SB_EX_OK

/-- Model of the OS `close` for a table of open descriptors: success when
the descriptor is open, `EBADF` (the `false` case) otherwise. -/
def osClose (fds : List Nat) (fd : Nat) : Bool × List Nat :=
  if fd ∈ fds then (true, fds.erase fd) else (false, fds)

/-- Model of `cmd_close` (lines 372-379 of `socket_builtin.c`); both the
`EBADF` branch and the generic error branch return `SB_EX_FAIL`, so the
boolean OS outcome determines the status completely. -/
def cmd_close (fds : List Nat) (args : List (List Char)) : Int × List Nat :=
  match args with
  | [fdS] =>
    match parse_int fdS with
    | none => (SB_EX_USAGE, fds)
    | some fd =>
      if fd < 0 then (SB_EX_USAGE, fds)
      else
        let r := osClose fds fd.toNat
        if r.1 then (SB_EX_OK, r.2) else (SB_EX_FAIL, r.2)
  | _ => (SB_EX_USAGE, fds)

/-- Result of `poll_wait` as seen by `cmd_connect`. -/
inductive PollRes
  | ready
  | timeout
  | perr
deriving DecidableEq

/-- OS behaviour of one `connect` candidate: `immediate` models `connect`
returning 0; `inprog p soerr` models `EINPROGRESS` with the given poll
outcome and `SO_ERROR` value (a failing `getsockopt` is folded into a
nonzero `soerr`); `connErr` models any other `connect` errno. -/
inductive ConnEv
  | immediate
  | inprog (p : PollRes) (soerr : Nat)
  | connErr
deriving DecidableEq

/-- Per-candidate outcome of the `cmd_connect` loop body. -/
inductive CRes
  | success
  | timeoutAll
  | tryNext
deriving DecidableEq

/-- Model of the connect attempt on one candidate (lines 129-158 of
`socket_builtin.c`).  The second component records whether and with which
timeout `poll_wait` was invoked (`none` = the code never waited). -/
def connectAttempt (want_nonblock : Bool) (timeout_ms : Int) : ConnEv → CRes × Option Int
  | ConnEv.immediate => (CRes.success, none)
  | ConnEv.connErr => (CRes.tryNext, none)
  | ConnEv.inprog p soerr =>
    if 0 ≤ timeout_ms then
      match p with
      | PollRes.timeout => (CRes.timeoutAll, some timeout_ms)
      | PollRes.perr => (CRes.tryNext, some timeout_ms)
      | PollRes.ready =>
        (if soerr = 0 then CRes.success else CRes.tryNext, some timeout_ms)
    else if ¬ want_nonblock then
      match p with
      | PollRes.perr => (CRes.tryNext, some (-1))
      | _ => (if soerr = 0 then CRes.success else CRes.tryNext, some (-1))
    else (CRes.success, none)

/-- Address-family preference of `cmd_connect`. -/
inductive AFPref
  | unspec
  | inet
  | inet6
deriving DecidableEq

/-- Arguments of `cmd_connect` after flag parsing. -/
structure ConnectCfg where
  af : AFPref
  want_nonblock : Bool
  timeout_ms : Int
  host : List Char
  port : List Char
  varfd : List Char
deriving DecidableEq

/-- Positional-argument check of `cmd_connect` (line 106): exactly three
arguments remain. -/
def finishConnect (pos : List (List Char)) (af : AFPref) (nb : Bool) (tms : Int) :
    Option ConnectCfg :=
  match pos with
  | [h, p, v] =>
    some { af := af, want_nonblock := nb, timeout_ms := tms, host := h, port := p, varfd := v }
  | _ => none

/-- Flag loop of `cmd_connect` (lines 95-105): `-4`/`-6`/`-n`/`-T`,
stopping at the first non-flag or unrecognized flag. -/
def parseConnectLoop : List (List Char) → AFPref → Bool → Int → Option ConnectCfg
  | [], af, nb, tms => finishConnect [] af nb tms
  | a :: rest, af, nb, tms =>
    if arg_is_flag a then
      if a = chars "-4" then parseConnectLoop rest AFPref.inet nb tms
      else if a = chars "-6" then parseConnectLoop rest AFPref.inet6 nb tms
      else if a = chars "-n" then parseConnectLoop rest af true tms
      else if a = chars "-T" then
        match rest with
        | [] => none
        | v :: rest2 =>
          match parse_uint v with
          | none => none
          | some u => parseConnectLoop rest2 af nb (castUToInt u)
      else finishConnect (a :: rest) af nb tms
    else finishConnect (a :: rest) af nb tms

/-- Positional-argument check of `cmd_accept` (lines 466-467): two or three
arguments, the first a nonnegative descriptor; result is the pair of the
parsed timeout and listener descriptor. -/
def acceptPositional (tms : Int) : List (List Char) → Option (Int × Int)
  | [l, _] =>
    match parse_int l with
    | none => none
    | some lfd => if lfd < 0 then none else some (tms, lfd)
  | [l, _, _] =>
    match parse_int l with
    | none => none
    | some lfd => if lfd < 0 then none else some (tms, lfd)
  | _ => none

/-- Flag loop of `cmd_accept` (lines 458-465): only `-T` is recognized. -/
def parseAcceptLoop : List (List Char) → Int → Option (Int × Int)
  | [], tms => acceptPositional tms []
  | a :: rest, tms =>
    if arg_is_flag a then
      if a = chars "-T" then
        match rest with
        | [] => none
        | v :: rest2 =>
          match parse_uint v with
          | none => none
          | some u => parseAcceptLoop rest2 (castUToInt u)
      else acceptPositional tms (a :: rest)
    else acceptPositional tms (a :: rest)

set_option maxRecDepth 8000

/-- Helper: the inner byte loop extends the accumulator by an initial
segment of the chunk. -/
theorem scanChunk_take (max : Nat) :
    ∀ (chunk acc : List Nat),
      ∃ k, k ≤ chunk.length ∧ (scanChunk max acc chunk).1 = acc ++ chunk.take k := by
  intro chunk
  induction chunk with
  | nil =>
    intro acc
    exact ⟨0, by simp [scanChunk]⟩
  | cons b rest ih =>
    intro acc
    by_cases hcap : max ≠ 0 ∧ max ≤ acc.length
    · refine ⟨0, by simp, ?_⟩
      simp only [scanChunk, if_pos hcap]
      simp
    · by_cases hb : b = 10
      · refine ⟨1, by simp, ?_⟩
        simp [scanChunk, hcap, hb]
      · obtain ⟨k, hk, hres⟩ := ih (acc ++ [b])
        refine ⟨k + 1, by simpa using hk, ?_⟩
        simp only [scanChunk, if_neg hcap, if_neg hb]
        simp [hres, List.take_succ_cons]

/-- Helper: when the inner byte loop does not stop at a newline, it either
consumed the whole chunk or stopped because the cap was reached. -/
theorem scanChunk_cont (max : Nat) :
    ∀ (chunk acc : List Nat),
      (scanChunk max acc chunk).2 = false →
      (scanChunk max acc chunk).1 = acc ++ chunk ∨
        (max ≠ 0 ∧ max ≤ (scanChunk max acc chunk).1.length) := by
  intro chunk
  induction chunk with
  | nil =>
    intro acc _
    left
    simp [scanChunk]
  | cons b rest ih =>
    intro acc hf
    by_cases hcap : max ≠ 0 ∧ max ≤ acc.length
    · right
      have hstep : scanChunk max acc (b :: rest) = (acc, false) := by
        simp only [scanChunk, if_pos hcap]
      rw [hstep]
      exact hcap
    · by_cases hb : b = 10
      · exfalso
        simp [scanChunk, hcap, hb] at hf
      · have hstep : scanChunk max acc (b :: rest) = scanChunk max (acc ++ [b]) rest := by
          simp only [scanChunk, if_neg hcap, if_neg hb]
        rw [hstep] at hf ⊢
        rcases ih (acc ++ [b]) hf with h | h
        · left
          simpa [List.append_assoc] using h
        · right
          exact h

/-- Helper: once the cap is reached, `read_line` returns the accumulator
without consuming any further event. -/
theorem read_line_cap_out (max : Nat) (tr : List RdEv) (acc got : List Nat)
    (h1 : max ≠ 0) (h2 : max ≤ acc.length) :
    read_line max tr acc got = (RdRet.out acc, got) := by
  cases tr <;> simp [read_line, h1, h2]

/-- Helper: starting from equal accumulator and read-log, a buffer returned
by `read_line` is an initial segment of all bytes obtained from `read`. -/
theorem read_line_out_pre (max : Nat) :
    ∀ (tr : List RdEv) (acc buf got : List Nat),
      read_line max tr acc acc = (RdRet.out buf, got) → ∃ t, buf ++ t = got := by
  intro tr
  induction tr with
  | nil =>
    intro acc buf got h
    by_cases hcap : max ≠ 0 ∧ max ≤ acc.length
    · simp only [read_line, if_pos hcap, Prod.mk.injEq, RdRet.out.injEq] at h
      exact ⟨[], by rw [List.append_nil, ← h.1]; exact h.2⟩
    · simp [read_line, hcap] at h
  | cons ev rest ih =>
    intro acc buf got h
    by_cases hcap : max ≠ 0 ∧ max ≤ acc.length
    · rw [read_line_cap_out max (ev :: rest) acc acc hcap.1 hcap.2] at h
      simp only [Prod.mk.injEq, RdRet.out.injEq] at h
      exact ⟨[], by rw [List.append_nil, ← h.1]; exact h.2⟩
    · cases ev with
      | timeout =>
        by_cases hz : acc.length = 0
        · simp [read_line, hcap, hz] at h
        · simp only [read_line, if_neg hcap, if_neg hz, Prod.mk.injEq, RdRet.out.injEq] at h
          exact ⟨[], by rw [List.append_nil, ← h.1]; exact h.2⟩
      | pollErr =>
        simp [read_line, hcap] at h
      | readErr =>
        simp [read_line, hcap] at h
      | eintr =>
        simp only [read_line, if_neg hcap] at h
        exact ih acc buf got h
      | eagain =>
        simp only [read_line, if_neg hcap] at h
        exact ih acc buf got h
      | ready chunk =>
        cases chunk with
        | nil =>
          simp only [read_line, if_neg hcap, Prod.mk.injEq, RdRet.out.injEq] at h
          exact ⟨[], by rw [List.append_nil, ← h.1]; exact h.2⟩
        | cons c cs =>
          simp only [read_line, if_neg hcap] at h
          by_cases hp : (scanChunk max acc (c :: cs)).2 = true
          · rw [if_pos hp] at h
            simp only [Prod.mk.injEq, RdRet.out.injEq] at h
            obtain ⟨k, _, hres⟩ := scanChunk_take max (c :: cs) acc
            refine ⟨(c :: cs).drop k, ?_⟩
            rw [← h.1, ← h.2, hres, List.append_assoc, List.take_append_drop]
          · rw [if_neg hp] at h
            have hf : (scanChunk max acc (c :: cs)).2 = false := by
              simpa using hp
            rcases scanChunk_cont max (c :: cs) acc hf with hfull | hcap2
            · rw [hfull] at h
              exact ih (acc ++ c :: cs) buf got h
            · rw [read_line_cap_out max rest _ _ hcap2.1 hcap2.2] at h
              simp only [Prod.mk.injEq, RdRet.out.injEq] at h
              obtain ⟨k, _, hres⟩ := scanChunk_take max (c :: cs) acc
              refine ⟨(c :: cs).drop k, ?_⟩
              rw [← h.1, ← h.2, hres, List.append_assoc, List.take_append_drop]

/-- Helper: whenever `write_full_poll` returns, it returns either the full
buffer length (having advanced the cursor past the whole buffer) or `-1`. -/
theorem wfp_spec (buf : List Nat) :
    ∀ (tr : List WrEv) (pos : Nat) (r : Int) (p : Nat),
      write_full_poll buf tr pos = (some r, p) →
      (r = (buf.length : Int) ∧ buf.length ≤ p) ∨ r = -1 := by
  intro tr
  induction tr with
  | nil =>
    intro pos r p h
    by_cases hle : buf.length ≤ pos
    · simp only [write_full_poll, if_pos hle, Prod.mk.injEq, Option.some.injEq] at h
      exact Or.inl ⟨h.1.symm, h.2 ▸ hle⟩
    · simp [write_full_poll, hle] at h
  | cons ev rest ih =>
    intro pos r p h
    by_cases hle : buf.length ≤ pos
    · simp only [write_full_poll, if_pos hle, Prod.mk.injEq, Option.some.injEq] at h
      exact Or.inl ⟨h.1.symm, h.2 ▸ hle⟩
    · cases ev with
      | wrote n =>
        by_cases hn : 0 < n
        · simp only [write_full_poll, if_neg hle, if_pos hn] at h
          exact ih (pos + n) r p h
        · simp only [write_full_poll, if_neg hle, if_neg hn, Prod.mk.injEq,
            Option.some.injEq] at h
          exact Or.inr h.1.symm
      | eintr =>
        simp only [write_full_poll, if_neg hle] at h
        exact ih pos r p h
      | eagain pr =>
        by_cases hpr : pr ≤ 0
        · simp only [write_full_poll, if_neg hle, if_pos hpr, Prod.mk.injEq,
            Option.some.injEq] at h
          exact Or.inr h.1.symm
        · simp only [write_full_poll, if_neg hle, if_neg hpr] at h
          exact ih pos r p h
      | werr =>
        simp only [write_full_poll, if_neg hle, Prod.mk.injEq, Option.some.injEq] at h
        exact Or.inr h.1.symm

/-- Helper: a byte list containing 0 splits as its NUL-truncation, the
first 0, and a tail. -/
theorem nulTruncate_split : ∀ bs : List Nat, 0 ∈ bs → ∃ t, bs = nulTruncate bs ++ 0 :: t := by
  intro bs
  induction bs with
  | nil =>
    intro h
    simp at h
  | cons b rest ih =>
    intro h
    by_cases hb : b = 0
    · subst hb
      exact ⟨rest, by simp [nulTruncate, List.takeWhile_cons]⟩
    · have hr : 0 ∈ rest := by
        rcases List.mem_cons.1 h with h0 | h0
        · exact absurd h0.symm hb
        · exact h0
      obtain ⟨t, ht⟩ := ih hr
      have hstep : nulTruncate (b :: rest) = b :: nulTruncate rest := by
        simp [nulTruncate, List.takeWhile_cons, hb]
      exact ⟨t, by rw [hstep, List.cons_append, ← ht]⟩

/-- C1: the claim says Timeout (124) is signalled only when the deadline
elapses with zero bytes accumulated.  The code is wrong: the helpers return
the accumulated length in the same `int` as the status codes, so a read that
accumulated exactly 124 bytes before the deadline expired collides with
`SB_EX_TIMEOUT` and `cmd_recv` reports Timeout with an empty variable,
discarding the data. -/
theorem c1_timeout_code_collision :
    cmd_recv [chars "-T", chars "50", chars "5", chars "v"]
      [RdEv.ready (List.replicate 124 65), RdEv.timeout] =
      CmdOut.ret SB_EX_TIMEOUT (some []) ∧
    SB_EX_TIMEOUT ≠ SB_EX_OK :=
  ⟨by decide, by decide⟩

/-- C2: the claim says a peer sending the single byte `X` and closing makes
line-mode recv succeed with `X` stored.  The code is wrong: the helper
returns accumulated length 1, which collides with `SB_EX_FAIL`, so
`cmd_recv` reports failure and stores nothing. -/
theorem c2_partial_line_fail_collision :
    cmd_recv [chars "5", chars "v"] [RdEv.ready [88], RdEv.ready []] =
      CmdOut.ret SB_EX_FAIL none ∧
    SB_EX_FAIL ≠ SB_EX_OK :=
  ⟨by decide, by decide⟩

/-- C3 counterexample: `recv -mode bytes` without `-max` is not rejected as
a usage error; the read proceeds and returns the available bytes with
success. -/
theorem c3_bytes_no_cap_not_rejected :
    cmd_recv [chars "-mode", chars "bytes", chars "7", chars "v"]
      [RdEv.ready [65, 66, 67], RdEv.ready []] =
      CmdOut.ret SB_EX_OK (some [65, 66, 67]) ∧
    SB_EX_OK ≠ SB_EX_USAGE :=
  ⟨by decide, by decide⟩

/-- C3 amended: with mode=bytes and no `-max`, `cmd_recv` performs the read
with the default target of 4096 bytes instead of rejecting the call. -/
theorem c3_bytes_default_cap :
    ∀ tr, cmd_recv [chars "-mode", chars "bytes", chars "7", chars "v"] tr =
      recvFinish (read_bytes 4096 tr []) :=
  fun _ => rfl

/-- C4 counterexample: with both `-n` and `-T 1000`, the flag parser records
both, and on `EINPROGRESS` the attempt takes the deadline branch: it polls
with timeout 1000 and can return Timeout instead of returning the
still-connecting handle immediately. -/
theorem c4_nonblock_with_deadline_waits :
    parseConnectLoop [chars "-n", chars "-T", chars "1000", chars "h", chars "80", chars "v"]
      AFPref.unspec false (-1) =
      some { af := AFPref.unspec, want_nonblock := true, timeout_ms := 1000,
             host := chars "h", port := chars "80", varfd := chars "v" } ∧
    connectAttempt true 1000 (ConnEv.inprog PollRes.timeout 0) =
      (CRes.timeoutAll, some 1000) :=
  ⟨by decide, by decide⟩

/-- C4 amended: when non-blocking is requested and no deadline was supplied
(`timeout_ms < 0`), the connect attempt never calls `poll_wait` and reports
success (with the possibly still-connecting handle) unless `connect` itself
failed outright. -/
theorem c4_nonblock_no_deadline_immediate (t : Int) (ev : ConnEv) (ht : t < 0) :
    (connectAttempt true t ev).2 = none ∧
    ((connectAttempt true t ev).1 = CRes.success ↔ ev ≠ ConnEv.connErr) := by
  have h1 : ¬ (0 ≤ t) := not_le.mpr ht
  cases ev with
  | immediate => simp [connectAttempt]
  | connErr => simp [connectAttempt]
  | inprog p so => simp [connectAttempt, h1]

/-- C4 witness: instance of the amended theorem at a concrete input. -/
theorem c4_witness :
    (connectAttempt true (-1) (ConnEv.inprog PollRes.timeout 0)).2 = none ∧
    ((connectAttempt true (-1) (ConnEv.inprog PollRes.timeout 0)).1 = CRes.success ↔
      ConnEv.inprog PollRes.timeout 0 ≠ ConnEv.connErr) :=
  c4_nonblock_no_deadline_immediate (-1) (ConnEv.inprog PollRes.timeout 0) (by decide)

/-- C5 counterexample: in line mode, the byte 98 arriving in the same chunk
as the newline is read from the descriptor but neither included in the
result nor left available: the trace is fully consumed and the byte is
gone. -/
theorem c5_bytes_after_newline_lost :
    read_line 0 [RdEv.ready [97, 10, 98]] [] [] = (RdRet.out [97, 10], [97, 10, 98]) ∧
    (98 : Nat) ∈ [97, 10, 98] ∧ (98 : Nat) ∉ [97, 10] :=
  ⟨by decide, by decide, by decide⟩

/-- C5 amended: the line-mode result never duplicates or reorders bytes: a
returned buffer is always an initial segment of the bytes read from the
descriptor; only bytes read in the final chunk past the terminator (or past
the cap) are silently discarded. -/
theorem c5_result_prefix_of_read (max : Nat) (tr : List RdEv) (buf got : List Nat)
    (h : read_line max tr [] [] = (RdRet.out buf, got)) : buf <+: got :=
  read_line_out_pre max tr [] buf got h

/-- C5 witness: instance of the amended theorem at a concrete input. -/
theorem c5_witness :
    read_line 0 [RdEv.ready [97, 10]] [] [] = (RdRet.out [97, 10], [97, 10]) ∧
    ([97, 10] : List Nat) <+: [97, 10] :=
  ⟨by decide, c5_result_prefix_of_read 0 [RdEv.ready [97, 10]] [97, 10] [97, 10] (by decide)⟩

/-- C6: whenever `write_full_poll` returns, either every byte of the buffer
was written (cursor beyond the end) and `cmd_send` reports success, or the
return is `-1` and `cmd_send` reports failure; no partial count is ever
surfaced to the caller. -/
theorem c6_send_all_or_fail (buf : List Nat) (tr : List WrEv) (r : Int) (p : Nat)
    (h : write_full_poll buf tr 0 = (some r, p)) :
    (r = (buf.length : Int) ∧ buf.length ≤ p ∧ sendExit r = SB_EX_OK) ∨
    (r = -1 ∧ sendExit r = SB_EX_FAIL) := by
  rcases wfp_spec buf tr 0 r p h with ⟨h1, h2⟩ | h1
  · refine Or.inl ⟨h1, h2, ?_⟩
    have hge : ¬ (r < 0) := by
      rw [h1]
      omega
    simp [sendExit, hge]
  · refine Or.inr ⟨h1, ?_⟩
    rw [h1]
    simp [sendExit]

/-- C6 witness: instance of the theorem at a concrete input. -/
theorem c6_witness :
    ((2 : Int) = (([1, 2] : List Nat).length : Int) ∧ ([1, 2] : List Nat).length ≤ 2 ∧
      sendExit 2 = SB_EX_OK) ∨
    ((2 : Int) = -1 ∧ sendExit 2 = SB_EX_FAIL) :=
  c6_send_all_or_fail [1, 2] [WrEv.wrote 2] 2 2 (by decide)

/-- C7: closing an open descriptor succeeds and removes it from the table;
a second close of the same descriptor reports `SB_EX_FAIL` (1), which is
distinct from both the usage status and success. -/
theorem c7_double_close_fails (fds : List Nat) (fdS : List Char) (n : Int)
    (hp : parse_int fdS = some n) (hn : 0 ≤ n) (hmem : n.toNat ∈ fds) (hnd : fds.Nodup) :
    cmd_close fds [fdS] = (SB_EX_OK, fds.erase n.toNat) ∧
    cmd_close (fds.erase n.toNat) [fdS] = (SB_EX_FAIL, fds.erase n.toNat) ∧
    SB_EX_FAIL ≠ SB_EX_USAGE ∧ SB_EX_FAIL ≠ SB_EX_OK := by
  have hnot : n.toNat ∉ fds.erase n.toNat := by
    intro hIn
    rcases (List.Nodup.mem_erase_iff hnd).1 hIn with ⟨hne, _⟩
    exact hne rfl
  refine ⟨?_, ?_, by decide, by decide⟩
  · simp [cmd_close, hp, osClose, hmem, not_lt.mpr hn]
  · simp [cmd_close, hp, osClose, hnot, not_lt.mpr hn]

/-- C7 witness: instance of the theorem at a concrete input. -/
theorem c7_witness :
    cmd_close [5] [chars "5"] = (SB_EX_OK, List.erase [5] (Int.toNat 5)) ∧
    cmd_close (List.erase [5] (Int.toNat 5)) [chars "5"] =
      (SB_EX_FAIL, List.erase [5] (Int.toNat 5)) ∧
    SB_EX_FAIL ≠ SB_EX_USAGE ∧ SB_EX_FAIL ≠ SB_EX_OK :=
  c7_double_close_fails [5] (chars "5") 5 (by decide) (by decide) (by decide) (by decide)

/-- C8 counterexample: a destroyed handle (5, after its successful close)
and a never-opened handle (7) produce identical operational failures; there
is no distinction, and a negative identifier is a usage error, not an
operational failure. -/
theorem c8_no_distinct_failure :
    cmd_close [5] [chars "5"] = (SB_EX_OK, []) ∧
    cmd_close [] [chars "5"] = (SB_EX_FAIL, []) ∧
    cmd_close [5] [chars "7"] = (SB_EX_FAIL, [5]) ∧
    (cmd_close [] [chars "5"]).1 = (cmd_close [5] [chars "7"]).1 ∧
    cmd_close [] [chars "-3"] = (SB_EX_USAGE, []) :=
  ⟨by decide, by decide, by decide, by decide, by decide⟩

/-- C8 amended: a close of any nonnegative descriptor that is not in the
open table — whether destroyed earlier or never opened — fails with the
same `SB_EX_FAIL`, while a negative identifier is a usage error. -/
theorem c8_closed_and_invalid_same_failure (fds : List Nat) (fdS : List Char) (n : Int)
    (hp : parse_int fdS = some n) :
    (0 ≤ n → n.toNat ∉ fds → cmd_close fds [fdS] = (SB_EX_FAIL, fds)) ∧
    (n < 0 → cmd_close fds [fdS] = (SB_EX_USAGE, fds)) := by
  constructor
  · intro hn hmem
    simp [cmd_close, hp, osClose, hmem, not_lt.mpr hn]
  · intro hn
    simp [cmd_close, hp, hn]

/-- C8 witness: instance of the amended theorem at a concrete input. -/
theorem c8_witness : cmd_close [] [chars "9"] = (SB_EX_FAIL, []) :=
  (c8_closed_and_invalid_same_failure [] (chars "9") 9 (by decide)).1 (by decide) (by decide)

/-- C9: on the storing path of `cmd_recv` (helper returned a buffer whose
length does not collide with the status codes 124 and 1), a buffer that
contains a NUL byte is stored truncated at its first NUL and the command
still reports success; the stored value is exactly the part of the buffer
before the first 0. -/
theorem c9_nul_truncation_success (buf : List Nat)
    (h124 : buf.length ≠ 124) (h1 : buf.length ≠ 1) (h0 : 0 ∈ buf) :
    recvFinish (RdRet.out buf) = CmdOut.ret SB_EX_OK (some (nulTruncate buf)) ∧
    ∃ t, buf = nulTruncate buf ++ 0 :: t := by
  constructor
  · have ha : ¬ ((buf.length : Int) = SB_EX_TIMEOUT) := by
      simp only [SB_EX_TIMEOUT]
      omega
    have hb : ¬ ((buf.length : Int) = SB_EX_FAIL) := by
      simp only [SB_EX_FAIL]
      omega
    simp [recvFinish, ha, hb]
  · exact nulTruncate_split buf h0

/-- C9 witness: instance of the theorem at a concrete input. -/
theorem c9_witness :
    recvFinish (RdRet.out [65, 0, 66]) = CmdOut.ret SB_EX_OK (some (nulTruncate [65, 0, 66])) ∧
    ∃ t, ([65, 0, 66] : List Nat) = nulTruncate [65, 0, 66] ++ 0 :: t :=
  c9_nul_truncation_success [65, 0, 66] (by decide) (by decide) (by decide)

/-- C10 counterexample: `parse_uint` also accepts strings that are not plain
nonnegative decimal integers — a signed zero, an explicit plus sign, leading
whitespace — and a `-T` value of 4294967295 wraps through the `(int)` cast
to `-1`, which is the Infinite deadline, so Infinite is obtainable without
omitting `-T`. -/
theorem c10_signed_and_wrapped_accepted :
    parse_uint (chars "-0") = some 0 ∧
    parse_uint (chars "+5") = some 5 ∧
    parse_uint (chars " 7") = some 7 ∧
    parseRecvLoop [chars "-T", chars "4294967295"] recvOpts0 =
      some ({ timeout_ms := -1, max := 0, mode := RMode.line }, []) :=
  ⟨by decide, by decide, by decide, by decide⟩

/-- C10 amended: the value `-1` for `-T` is rejected (range error in
`parse_uint`), and all three deadline-taking commands turn it into a usage
error during flag parsing, before any I/O: `cmd_recv` returns the usage
status without consuming any trace event, and the connect/accept flag
parsers reject the argument vector. -/
theorem c10_minus_one_rejected :
    parse_uint (chars "-1") = none ∧
    (∀ rest tr, cmd_recv (chars "-T" :: chars "-1" :: rest) tr =
      CmdOut.ret SB_EX_USAGE none) ∧
    (∀ rest af nb tms, parseConnectLoop (chars "-T" :: chars "-1" :: rest) af nb tms = none) ∧
    (∀ rest tms, parseAcceptLoop (chars "-T" :: chars "-1" :: rest) tms = none) :=
  ⟨by decide, fun _ _ => rfl, fun _ _ _ _ => rfl, fun _ _ => rfl⟩

end SocketSpec
